import Mathlib

/-!
Verification of the Burnt Beats MIDI corpus pipeline.

This file embeds, as executable Lean definitions, the parts of the Python
sources that the specification's claims are about:

* `server/fetch-missing-rhythms.py` — pattern identity derivation and
  local/remote reconciliation (`_create_pattern_id`, `get_existing_patterns`,
  `_scan_repo_contents`, `find_missing_patterns`);
* `server/comprehensive-midi-processor.py` — analysis, categorization,
  integration and batch processing (`analyze_midi_file`,
  `categorize_midi_file`, `integrate_midi_file`, `process_all_files`);
* `server/midi-catalog.py` — `estimate_overall_tempo`;
* `server/midi-validation.py` — `validate_midi_file`, `fix_invalid_files`,
  `run_full_validation`;
* `server/midi-land-importer.py` — `_get_tempo_range`,
  `_generate_rhythm_catalog`.

Python strings are modelled as `List Char` (the files the pipeline touches
have ASCII names, where UTF-8 bytes coincide with code points), machine
floats that only feed comparisons and rounding as `ℚ`, and the filesystem as
an association list from path to file content.  `hashlib.md5` is embedded as
a full executable MD5 (RFC 1321) over byte lists.
-/

namespace BurntBeats

/-! ## Python string primitives -/

/-- Python `str.lower` restricted to ASCII, character by character. -/
def lowerChar (c : Char) : Char :=
  if 'A' ≤ c ∧ c ≤ 'Z' then Char.ofNat (c.toNat + 32) else c

/-- Python `str.lower` on an ASCII string modelled as a character list. -/
def toLowerL (s : List Char) : List Char := s.map lowerChar

/-- Python `str.isdigit` restricted to ASCII decimal digits. -/
def isDigitChar (c : Char) : Bool := '0' ≤ c ∧ c ≤ '9'

/-- Numeric value of an ASCII digit string, as computed by Python `int`. -/
def digitsToNat (s : List Char) : ℕ :=
  s.foldl (fun acc c => 10 * acc + (c.toNat - 48)) 0

/-- Fuel-driven worker for `replaceL`; the fuel only forces structural
recursion (any fuel bounding the string length gives the same answer,
`replaceLAux_irrel`). -/
def replaceLAux (pat repl : List Char) : ℕ → List Char → List Char
  | 0, s => s
  | _ + 1, [] => []
  | fuel + 1, c :: cs =>
    if pat.isPrefixOf (c :: cs) then
      repl ++ replaceLAux pat repl fuel (cs.drop (pat.length - 1))
    else
      c :: replaceLAux pat repl fuel cs

/-- Python `str.replace pat repl`: leftmost, non-overlapping replacement of
every occurrence of `pat` (here always nonempty) by `repl`. -/
def replaceL (s pat repl : List Char) : List Char :=
  replaceLAux pat repl s.length s

/-- Python `pathlib.Path(...).stem`: the final component without its last
suffix; a name whose only dot leads (like `.mid` alone) keeps itself. -/
def stemL (l : List Char) : List Char :=
  let r := l.reverse
  let i := r.indexOf '.'
  if i + 1 < l.length then (r.drop (i + 1)).reverse else l

/-- Python substring containment (`pat in s`). -/
def containsSub (s pat : List Char) : Bool :=
  match s with
  | [] => pat.isPrefixOf ([] : List Char)
  | _ :: cs => pat.isPrefixOf s || containsSub cs pat

/-! ## MD5 (RFC 1321), the model of Python `hashlib.md5(...).hexdigest()`

All words are natural numbers kept below `2^32` by explicit reduction. -/

/-- Truncation of a natural number to a 32-bit word. -/
def w32 (n : ℕ) : ℕ := n % 4294967296

/-- 32-bit bitwise complement. -/
def wnot (n : ℕ) : ℕ := 4294967295 - w32 n

/-- 32-bit left rotation. -/
def rotl (x s : ℕ) : ℕ := w32 (x <<< s) ||| (w32 x >>> (32 - s))

/-- The 64 MD5 sine-derived constants. -/
def md5K : List ℕ :=
  [0xd76aa478, 0xe8c7b756, 0x242070db, 0xc1bdceee,
   0xf57c0faf, 0x4787c62a, 0xa8304613, 0xfd469501,
   0x698098d8, 0x8b44f7af, 0xffff5bb1, 0x895cd7be,
   0x6b901122, 0xfd987193, 0xa679438e, 0x49b40821,
   0xf61e2562, 0xc040b340, 0x265e5a51, 0xe9b6c7aa,
   0xd62f105d, 0x02441453, 0xd8a1e681, 0xe7d3fbc8,
   0x21e1cde6, 0xc33707d6, 0xf4d50d87, 0x455a14ed,
   0xa9e3e905, 0xfcefa3f8, 0x676f02d9, 0x8d2a4c8a,
   0xfffa3942, 0x8771f681, 0x6d9d6122, 0xfde5380c,
   0xa4beea44, 0x4bdecfa9, 0xf6bb4b60, 0xbebfbc70,
   0x289b7ec6, 0xeaa127fa, 0xd4ef3085, 0x04881d05,
   0xd9d4d039, 0xe6db99e5, 0x1fa27cf8, 0xc4ac5665,
   0xf4292244, 0x432aff97, 0xab9423a7, 0xfc93a039,
   0x655b59c3, 0x8f0ccc92, 0xffeff47d, 0x85845dd1,
   0x6fa87e4f, 0xfe2ce6e0, 0xa3014314, 0x4e0811a1,
   0xf7537e82, 0xbd3af235, 0x2ad7d2bb, 0xeb86d391]

/-- The 64 MD5 per-round left-rotation amounts. -/
def md5S : List ℕ :=
  [7, 12, 17, 22, 7, 12, 17, 22, 7, 12, 17, 22, 7, 12, 17, 22,
   5, 9, 14, 20, 5, 9, 14, 20, 5, 9, 14, 20, 5, 9, 14, 20,
   4, 11, 16, 23, 4, 11, 16, 23, 4, 11, 16, 23, 4, 11, 16, 23,
   6, 10, 15, 21, 6, 10, 15, 21, 6, 10, 15, 21, 6, 10, 15, 21]

/-- One MD5 round applied to the running state `(a, b, c, d)`. -/
def md5Step (m : List ℕ) (st : ℕ × ℕ × ℕ × ℕ) (i : ℕ) : ℕ × ℕ × ℕ × ℕ :=
  let (a, b, c, d) := st
  let fg : ℕ × ℕ :=
    if i < 16 then ((b &&& c) ||| (wnot b &&& d), i)
    else if i < 32 then ((d &&& b) ||| (wnot d &&& c), (5 * i + 1) % 16)
    else if i < 48 then (b ^^^ c ^^^ d, (3 * i + 5) % 16)
    else (c ^^^ (b ||| wnot d), (7 * i) % 16)
  let f := w32 (fg.1 + a + md5K.getD i 0 + m.getD fg.2 0)
  (d, w32 (b + rotl f (md5S.getD i 0)), b, c)

/-- Decode 64 bytes into 16 little-endian 32-bit words. -/
def bytesToWords (bs : List ℕ) : List ℕ :=
  match bs with
  | b0 :: b1 :: b2 :: b3 :: rest =>
    (b0 + 256 * b1 + 65536 * b2 + 16777216 * b3) :: bytesToWords rest
  | _ => []

/-- Process one 64-byte block, updating the MD5 state. -/
def md5Block (st : ℕ × ℕ × ℕ × ℕ) (block : List ℕ) : ℕ × ℕ × ℕ × ℕ :=
  let m := bytesToWords block
  let r := (List.range 64).foldl (md5Step m) st
  (w32 (st.1 + r.1), w32 (st.2.1 + r.2.1), w32 (st.2.2.1 + r.2.2.1),
   w32 (st.2.2.2 + r.2.2.2))

/-- MD5 padding: `0x80`, zeros to 56 mod 64, then the bit length in 8
little-endian bytes. -/
def md5Pad (msg : List ℕ) : List ℕ :=
  let bitLen := (8 * msg.length) % 18446744073709551616
  msg ++ 128 :: List.replicate ((119 - msg.length % 64) % 64) 0 ++
    (List.range 8).map (fun j => bitLen >>> (8 * j) % 256)

/-- Fuel-driven worker for `chunks64`. -/
def chunks64Aux : ℕ → List ℕ → List (List ℕ)
  | 0, _ => []
  | _ + 1, [] => []
  | fuel + 1, c :: cs => (c :: cs).take 64 :: chunks64Aux fuel (cs.drop 63)

/-- Split a byte list into 64-byte chunks. -/
def chunks64 (l : List ℕ) : List (List ℕ) :=
  chunks64Aux l.length l

/-- MD5 digest of a byte list: 16 bytes. -/
def md5Digest (msg : List ℕ) : List ℕ :=
  let st := (chunks64 (md5Pad msg)).foldl md5Block
    (0x67452301, 0xefcdab89, 0x98badcfe, 0x10325476)
  [st.1, st.2.1, st.2.2.1, st.2.2.2].flatMap
    (fun w => [w % 256, w / 256 % 256, w / 65536 % 256, w / 16777216 % 256])

/-- The sixteen lowercase hexadecimal digit characters. -/
def hexChars : List Char := "0123456789abcdef".toList

/-- Two-character lowercase hex rendering of one byte. -/
def byteToHex (b : ℕ) : List Char :=
  [hexChars.getD (b / 16 % 16) '0', hexChars.getD (b % 16) '0']

/-- Python `hashlib.md5(s.encode()).hexdigest()` on an ASCII string. -/
def md5hex (s : List Char) : List Char :=
  (md5Digest (s.map Char.toNat)).flatMap byteToHex

/-! ## `server/fetch-missing-rhythms.py` — identity derivation and
reconciliation -/

/-- The literal `"groove_"` stripped by `_create_pattern_id`. -/
def grooveTok : List Char := "groove_".toList

/-- The literal `".mid"` stripped by `_create_pattern_id`. -/
def midTok : List Char := ".mid".toList

/-- The style vocabulary of `_create_pattern_id` (line 73). -/
def styleVocab : List (List Char) :=
  ["rock".toList, "funk".toList, "jazz".toList, "latin".toList,
   "blues".toList, "reggae".toList, "hiphop".toList]

/-- `part.isdigit() and 60 <= int(part) <= 250` (line 71). -/
def isTempoTok (p : List Char) : Bool :=
  !p.isEmpty && p.all isDigitChar && decide (60 ≤ digitsToNat p) &&
    decide (digitsToNat p ≤ 250)

/-- `part in ['rock', 'funk', 'jazz', 'latin', 'blues', 'reggae', 'hiphop']`
(line 73). -/
def isStyleTok (p : List Char) : Bool := styleVocab.contains p

/-- The `for part in parts` loop of `_create_pattern_id` (lines 70–74):
each matching token overwrites the running `tempo` respectively `style`. -/
def scanParts :
    List (List Char) → Option (List Char) → Option (List Char) →
      Option (List Char) × Option (List Char)
  | [], tempo, style => (tempo, style)
  | p :: ps, tempo, style =>
    if isTempoTok p then scanParts ps (some p) style
    else if isStyleTok p then scanParts ps tempo (some p)
    else scanParts ps tempo style

/-- `filename.replace("groove_", "").replace(".mid", "")` (line 61). -/
def cleanedName (filename : List Char) : List Char :=
  replaceL (replaceL filename grooveTok []) midTok []

/-- `_create_pattern_id` (lines 58–79): style/tempo extraction from the
cleaned name when it has at least three `_`-separated parts and both a tempo
and a style token occur; otherwise the first 8 hex characters of the MD5 of
the cleaned name. -/
def createPatternId (filename : List Char) : List Char :=
  let cleaned := cleanedName filename
  let parts := List.splitOn '_' cleaned
  if 3 ≤ parts.length then
    match scanParts parts none none with
    | (some tempo, some style) => style ++ '_' :: tempo
    | _ => (md5hex cleaned).take 8
  else (md5hex cleaned).take 8

/-- Identity of a local file in `get_existing_patterns` (lines 51–53): the
pattern id of the lower-cased stem. -/
def localPatternId (fileName : List Char) : List Char :=
  createPatternId (toLowerL (stemL fileName))

/-- Identity of a remote listing entry in `_scan_repo_contents` (line 109):
the pattern id of the raw entry name. -/
def remotePatternId (entryName : List Char) : List Char :=
  createPatternId entryName

/-- A remote listing entry as accumulated by `_scan_repo_contents`. -/
structure PatternInfo where
  name : List Char
  path : List Char
  size : ℕ
  patternId : List Char
deriving DecidableEq, Repr

/-- Construction of the `pattern_info` record (lines 104–110). -/
def mkPatternInfo (name path : List Char) (size : ℕ) : PatternInfo :=
  { name := name, path := path, size := size,
    patternId := remotePatternId name }

/-- `find_missing_patterns` (lines 126–140): keep the remote patterns whose
identity is not in the local identity set. -/
def findMissingPatterns (remote : List PatternInfo)
    (existing : List (List Char)) : List PatternInfo :=
  remote.filter (fun p => !existing.contains p.patternId)

/-! ## Rational stand-ins for Python numeric built-ins -/

/-- Python `int(x)`: truncation toward zero (`/` on `ℤ` is T-division). -/
def pyInt (q : ℚ) : ℤ := q.num / (q.den : ℤ)

/-- Python `round(x)` to an integer: round half to even. -/
def roundHalfEven (q : ℚ) : ℤ :=
  let f := Int.floor q
  let r := q - (f : ℚ)
  if r < 1/2 then f
  else if 1/2 < r then f + 1
  else if f % 2 = 0 then f else f + 1

/-- Python `round(x, 2)`. -/
def pyRound2 (q : ℚ) : ℚ := (roundHalfEven (q * 100) : ℚ) / 100

/-- `mido.tempo2bpm`: BPM from microseconds per beat. -/
def tempo2bpm (tempo : ℕ) : ℚ := 60000000 / (tempo : ℚ)

/-! ## The parsed MIDI container, as surfaced by `mido.MidiFile`

A message carries its delta time and its kind; kinds the pipeline never
inspects are collapsed into `other`.  `length` is the duration in seconds
that `mido` reports for the parsed file. -/

/-- The message kinds the pipeline code branches on. -/
inductive MsgKind where
  | trackName (name : List Char)
  | programChange (channel program : ℕ)
  | noteOn (channel note velocity : ℕ)
  | setTempo (tempo : ℕ)
  | timeSignature (numerator denominator : ℕ)
  | keySignature (key : List Char)
  | other
deriving DecidableEq, Repr

/-- One MIDI message: delta time plus kind. -/
structure MidiMsg where
  time : ℕ
  kind : MsgKind
deriving DecidableEq, Repr

/-- A successfully parsed MIDI file. -/
structure MidiFile where
  typ : ℕ
  ticksPerBeat : ℕ
  length : ℚ
  tracks : List (List MidiMsg)
deriving DecidableEq, Repr

/-- All messages of a file, in track order then message order — the
iteration order of the nested loops in `analyze_midi_file`. -/
def allMsgs (m : MidiFile) : List MidiMsg := m.tracks.flatMap id

/-! ## `server/comprehensive-midi-processor.py` -/

/-- One entry of `analysis['tempo_changes']` (lines 150–155). -/
structure TempoChange where
  time : ℕ
  bpm : ℚ
deriving DecidableEq, Repr

/-- The `set_tempo` branch of the message loop: accumulate `current_time`
over all messages (it is not reset between tracks) and record each tempo
event as `round(mido.tempo2bpm(msg.tempo), 2)` at that time. -/
def collectTempo : List MidiMsg → ℕ → List TempoChange
  | [], _ => []
  | msg :: rest, t =>
    let t' := t + msg.time
    match msg.kind with
    | .setTempo tempo =>
      ⟨t', pyRound2 (tempo2bpm tempo)⟩ :: collectTempo rest t'
    | _ => collectTempo rest t'

/-- `analysis['tempo_changes']` for a whole file. -/
def tempoChangesOf (m : MidiFile) : List TempoChange :=
  collectTempo (allMsgs m) 0

/-- `analysis['time_signatures']`, keeping numerator and denominator (their
event times are recorded by the code but never read afterwards). -/
def timeSigsOf (m : MidiFile) : List (ℕ × ℕ) :=
  (allMsgs m).filterMap (fun msg =>
    match msg.kind with
    | .timeSignature n d => some (n, d)
    | _ => none)

/-- The drum check of lines 139–147: a sounding note on channel 9. -/
def msgIsDrumNote : MsgKind → Bool
  | .noteOn ch _ vel => decide (0 < vel) && ch == 9
  | _ => false

/-- `analysis['has_drums']`. -/
def hasDrumsOf (m : MidiFile) : Bool :=
  (allMsgs m).any (fun msg => msgIsDrumNote msg.kind)

/-- A sounding note: `note_on` with positive velocity (line 139). -/
def msgIsNote : MsgKind → Bool
  | .noteOn _ _ vel => decide (0 < vel)
  | _ => false

/-- Number of sounding notes across all tracks. -/
def noteCountOf (m : MidiFile) : ℕ :=
  (allMsgs m).countP (fun msg => msgIsNote msg.kind)

/-- Decimal rendering of a natural number, as Python string formatting. -/
def natToChars (n : ℕ) : List Char := (toString n).toList

/-- Decimal rendering of an integer, as Python string formatting. -/
def intToChars (i : ℤ) : List Char := (toString i).toList

/-- The part of `analyze_midi_file`'s result dict that later stages read. -/
structure Analysis where
  filename : List Char
  path : List Char
  numTracks : ℕ
  tempoChanges : List TempoChange
  timeSignatures : List (ℕ × ℕ)
  hasDrums : Bool
  estimatedTempo : ℚ
  timeSignature : List Char
deriving DecidableEq, Repr

/-- `analyze_midi_file` (lines 91–187) on a successfully parsed file:
estimated tempo is the first recorded tempo change's BPM, default `120`
(lines 174–178); the time signature string is built from the first
recorded time-signature event, default `"4/4"` (lines 180–185). -/
def analyzeMidiFile (filename path : List Char) (m : MidiFile) : Analysis :=
  let tcs := tempoChangesOf m
  let tss := timeSigsOf m
  { filename := filename
    path := path
    numTracks := m.tracks.length
    tempoChanges := tcs
    timeSignatures := tss
    hasDrums := hasDrumsOf m
    estimatedTempo :=
      match tcs with
      | tc :: _ => tc.bpm
      | [] => 120
    timeSignature :=
      match tss with
      | (n, d) :: _ => natToChars n ++ '/' :: natToChars d
      | [] => "4/4".toList }

/-- `categorize_midi_file` (lines 193–214): ordered keyword rules over the
lower-cased filename, then a sample/loop check over the lower-cased path,
then drum/track-count fallbacks. -/
def categorizeMidiFile (a : Analysis) : List Char :=
  let filename := toLowerL a.filename
  let path := toLowerL a.path
  if ["groove", "drum", "beat", "rhythm"].any
      (fun k => containsSub filename k.toList) then "groove_patterns".toList
  else if ["chord", "progression", "harmony"].any
      (fun k => containsSub filename k.toList) then "chord_progressions".toList
  else if ["melody", "lead", "tune"].any
      (fun k => containsSub filename k.toList) then "melodies".toList
  else if ["sample", "loop"].any
      (fun k => containsSub path k.toList) then "samples".toList
  else if a.hasDrums then "groove_patterns".toList
  else if a.numTracks = 1 then "melodies".toList
  else if 5 < a.numTracks then "templates".toList
  else "templates".toList

/-- The final path component of a POSIX-style path. -/
def baseNameL (p : List Char) : List Char :=
  (p.reverse.takeWhile (fun c => c ≠ '/')).reverse

/-- The filesystem slice the pipeline writes into: association from path to
parsed content (`none` models an unparseable byte string), newest entry
first, so a later write to the same path shadows — i.e. overwrites — the
earlier one, as `shutil.copy2` does. -/
abbrev FS := List (List Char × Option MidiFile)

/-- Read a path back from the filesystem model. -/
def fsLookup : FS → List Char → Option (Option MidiFile)
  | [], _ => none
  | (q, c) :: rest, p => if q = p then some c else fsLookup rest p

/-- `shutil.copy2 src target`: (over)write `target` with the source bytes. -/
def fsWrite (fs : FS) (p : List Char) (c : Option MidiFile) : FS :=
  (p, c) :: fs

/-- The record appended to `processed_files` on integration (lines 247–253). -/
structure IntegrationInfo where
  originalPath : List Char
  integratedPath : List Char
  category : List Char
  analysis : Analysis
deriving DecidableEq, Repr

/-- The descriptive filename of line 228:
`f"{category}_{original_name}_{tempo}bpm_{time_sig}_{tracks}tracks.mid"`. -/
def newFilenameFor (category originalName : List Char) (tempo : ℤ)
    (timeSig : List Char) (tracks : ℕ) : List Char :=
  category ++ '_' :: originalName ++ '_' :: intToChars tempo ++
    "bpm_".toList ++ timeSig ++ '_' :: natToChars tracks ++
    "tracks.mid".toList

/-- The target directory of lines 231–239: groove patterns bucketed by
tempo under `storage/midi/groove/categorized`, everything else under
`storage/midi/templates/<category with _ replaced by ->`. -/
def targetDirFor (category : List Char) (tempo : ℤ) : List Char :=
  if category = "groove_patterns".toList then
    "storage/midi/groove/categorized/".toList ++
      (if tempo < 80 then "slow".toList
       else if tempo < 120 then "medium".toList
       else "fast".toList)
  else
    "storage/midi/templates/".toList ++
      replaceL category "_".toList "-".toList

/-- `integrate_midi_file` (lines 216–270): build the descriptive filename
and category directory, then copy the source content to that target path —
unconditionally, with no check whether the path already exists. -/
def integrateMidiFile (fs : FS) (srcPath : List Char)
    (content : Option MidiFile) (a : Analysis) (category : List Char) :
    FS × IntegrationInfo :=
  let tempo := pyInt a.estimatedTempo
  let timeSig := replaceL a.timeSignature "/".toList "-".toList
  let originalName := stemL (baseNameL srcPath)
  let targetPath := targetDirFor category tempo ++ '/' ::
    newFilenameFor category originalName tempo timeSig a.numTracks
  (fsWrite fs targetPath content,
   { originalPath := srcPath, integratedPath := targetPath,
     category := category, analysis := a })

/-- A discovered file handed to `process_all_files`: its path, its name and
the outcome `mido.MidiFile` would produce on its bytes (`Except.error e`
models `mido` raising an exception with message `e`). -/
structure SourceFile where
  path : List Char
  name : List Char
  data : Except (List Char) MidiFile
deriving Repr

/-- One entry of `integration_report['discovered']`: either a full analysis
or the error dict `{'error': …, 'filename': …, 'path': …}` built at line
191. -/
inductive DiscoveredEntry where
  | ok (a : Analysis)
  | err (message filename path : List Char)
deriving DecidableEq, Repr

/-- The parts of the run state that `process_all_files` threads: the
`discovered` report list, the `processed` list and the filesystem. -/
structure RunReport where
  discovered : List DiscoveredEntry
  processed : List IntegrationInfo
  fs : FS

/-- The body of the `for midi_file in self.discovered_files` loop (lines
276–291): analyze; on analyzer error record the error entry and move on;
otherwise categorize and integrate.  (The `except` of
`integrate_midi_file` catches only I/O failure of the copy, which the
filesystem model performs unconditionally.) -/
def processStep (r : RunReport) (f : SourceFile) : RunReport :=
  match f.data with
  | .error e =>
    { r with discovered := r.discovered ++ [.err e f.name f.path] }
  | .ok m =>
    let an := analyzeMidiFile f.name f.path m
    let category := categorizeMidiFile an
    let (fs', info) := integrateMidiFile r.fs f.path (some m) an category
    { discovered := r.discovered ++ [.ok an]
      processed := r.processed ++ [info]
      fs := fs' }

/-- `process_all_files` (lines 272–299) over a batch of discovered files. -/
def processAllFiles (fs₀ : FS) (files : List SourceFile) : RunReport :=
  files.foldl processStep { discovered := [], processed := [], fs := fs₀ }

/-! ## `server/midi-catalog.py` — `estimate_overall_tempo` -/

/-- The per-track `tempo_changes` BPM lists that `extract_midi_metadata`
collects (lines 50–75; event times are recorded but never read by the
estimator). -/
def catalogTrackTempos (m : MidiFile) : List (List ℚ) :=
  m.tracks.map (fun track => track.filterMap (fun msg =>
    match msg.kind with
    | .setTempo tempo => some (pyRound2 (tempo2bpm tempo))
    | _ => none))

/-- `estimate_overall_tempo` (lines 90–99): the mean of all tempo BPMs,
rounded to two decimals, default `120` when there are none. -/
def estimateOverallTempo (trackTempos : List (List ℚ)) : ℚ :=
  let tempos := trackTempos.flatten
  if tempos.isEmpty then 120
  else pyRound2 (tempos.sum / (tempos.length : ℚ))

/-- The catalog script's estimated tempo for a parsed file. -/
def catalogEstimatedTempo (m : MidiFile) : ℚ :=
  estimateOverallTempo (catalogTrackTempos m)

/-! ## `server/midi-validation.py` -/

/-- The validation dict of `validate_midi_file`, restricted to the keys the
rest of the script reads. -/
structure ValidationRecord where
  valid : Bool
  path : List Char
  hasNotes : Bool
  noteCount : ℕ
  issues : List (List Char)
deriving DecidableEq, Repr

/-- `validate_midi_file` (lines 31–80): a file whose parse raises gets
`valid = False` and a corruption issue; a parsed file gets `valid = True`
with issues for zero sounding notes, duration under `0.1` seconds, and
zero tracks. -/
def validateMidiFile (path : List Char) (content : Option MidiFile) :
    ValidationRecord :=
  match content with
  | none =>
    { valid := false, path := path, hasNotes := false, noteCount := 0,
      issues := ["File corruption or invalid format".toList] }
  | some m =>
    let nc := noteCountOf m
    { valid := true
      path := path
      hasNotes := 0 < nc
      noteCount := nc
      issues :=
        (if nc = 0 then ["No note events found".toList] else []) ++
        (if m.length < 1/10 then ["Very short duration".toList] else []) ++
        (if m.tracks.length = 0 then ["No tracks found".toList] else []) }

/-- The per-file acceptance check used by `validate_templates` and its
siblings (line 91): `validation["valid"] and not validation["issues"]`. -/
def recordCountsValid (r : ValidationRecord) : Bool :=
  r.valid && r.issues.isEmpty

/-- The `invalid` lists the category validators accumulate (lines 89–94
and their copies): one record for every scanned file that fails the
acceptance check. -/
def collectInvalid (fs : FS) : List ValidationRecord :=
  (fs.map (fun e => validateMidiFile e.1 e.2)).filter
    (fun r => !recordCountsValid r)

/-- The paths `fix_invalid_files` unlinks (lines 187–196): invalid records
whose `valid` flag is `False`, i.e. completely corrupted files. -/
def deletedPaths (invalid : List ValidationRecord) : List (List Char) :=
  (invalid.filter (fun r => !r.valid)).map (fun r => r.path)

/-- `fix_invalid_files` (lines 176–201) acting on the scanned storage
tree: remove every completely corrupted file; files with mere issues are
only reported. -/
def fixInvalidFiles (invalid : List ValidationRecord) (fs : FS) : FS :=
  fs.filter (fun e => !(deletedPaths invalid).contains e.1)

/-- `run_full_validation` (lines 239–261) as it acts on the scanned MIDI
storage tree: validate every file, then — automatically, still inside the
validation entry point (line 255) — run `fix_invalid_files` on the
collected invalid records.  (Directory creation, catalog auditing and
catalog regeneration touch no MIDI file.) -/
def runFullValidation (fs : FS) : FS :=
  fixInvalidFiles (collectInvalid fs) fs

/-! ## `server/midi-land-importer.py` -/

/-- An entry of `import_report['imported_files']`, restricted to what
`_generate_rhythm_catalog` reads: `primary_bpm` is `none` when the
analysis dict lacks the key (the analyzer failed on that file). -/
structure ImportRecord where
  filename : List Char
  category : List Char
  primaryBpm : Option ℚ
deriving DecidableEq, Repr

/-- The local scope of `_get_tempo_range`: its only binding is the
parameter `bpm`. -/
def tempoRangeScope (bpm : ℚ) (name : List Char) : Option ℚ :=
  if name = "bpm".toList then some bpm else none

/-- The message of the `NameError` Python raises at line 342. -/
def bmpNameError : List Char :=
  "NameError: name 'bmp' is not defined".toList

/-- `_get_tempo_range` (lines 340–349): its first comparison reads the
name `bmp`, which is not in scope, so evaluating the body raises
`NameError` before any branch is taken. -/
def getTempoRange (bpm : ℚ) : Except (List Char) (List Char) :=
  match tempoRangeScope bpm "bmp".toList with
  | none => .error bmpNameError
  | some bmp =>
    .ok (if bmp < 80 then "slow".toList
         else if bpm < 120 then "medium".toList
         else if bpm < 160 then "fast".toList
         else "very_fast".toList)

/-- The aggregate counters `_generate_rhythm_catalog` maintains. -/
structure RhythmCatalog where
  totalFiles : ℕ
  categories : List (List Char × ℕ)
  tempoRanges : List (List Char × ℕ)
deriving DecidableEq, Repr

/-- Increment the counter stored under a key, starting it at 1. -/
def bumpCount (l : List (List Char × ℕ)) (k : List Char) :
    List (List Char × ℕ) :=
  match l with
  | [] => [(k, 1)]
  | (k', n) :: rest =>
    if k' = k then (k', n + 1) :: rest else (k', n) :: bumpCount rest k

/-- One iteration of the `for file_record in …imported_files` loop (lines
299–331): count the category, then — when the record carries a
`primary_bpm` — call `_get_tempo_range`, whose `NameError` propagates out
of the loop unhandled. -/
def catalogStep (c : RhythmCatalog) (r : ImportRecord) :
    Except (List Char) RhythmCatalog :=
  let c' := { c with categories := bumpCount c.categories r.category }
  match r.primaryBpm with
  | none => .ok c'
  | some bpm => do
    let range ← getTempoRange bpm
    .ok { c' with tempoRanges := bumpCount c'.tempoRanges range }

/-- `_generate_rhythm_catalog` (lines 285–338) over the imported records:
either the finished catalog or the first uncaught exception. -/
def generateRhythmCatalog (records : List ImportRecord) :
    Except (List Char) RhythmCatalog :=
  records.foldlM catalogStep
    { totalFiles := records.length, categories := [], tempoRanges := [] }

/-! ## Specification-side definitions, for the refinement claims

These follow the wording of the (amended) spec sentences and are compared
against the code-derived definitions above. -/

/-- The last element of a list, or a fallback: "the last matching token". -/
def lastOr {α : Type} : List α → Option α → Option α
  | [], d => d
  | x :: xs, _ => lastOr xs (some x)

/-- Spec-side identity derivation: strip `groove_` and `.mid`, split on
`_`; when the cleaned name has at least three tokens and contains both a
tempo token (digits, value in `[60, 250]`) and a style-vocabulary token,
the identity is `"{style}_{tempo}"` built from the last such tokens;
otherwise it is the first 8 hex characters of the MD5 of the cleaned
name. -/
def specPatternId (filename : List Char) : List Char :=
  let cleaned := cleanedName filename
  let parts := List.splitOn '_' cleaned
  match lastOr (parts.filter isTempoTok) none,
      lastOr (parts.filter isStyleTok) none with
  | some tempo, some style =>
    if 3 ≤ parts.length then style ++ '_' :: tempo
    else (md5hex cleaned).take 8
  | _, _ => (md5hex cleaned).take 8

/-- First-match evaluation of an ordered rule list with a default. -/
def firstMatch : List (Bool × List Char) → List Char → List Char
  | [], dflt => dflt
  | (cond, v) :: rest, dflt => if cond then v else firstMatch rest dflt

/-- The category rules in spec order, amended so that the keyword rules
1–3 read the lower-cased filename only (rule 4 reads the path). -/
def specCategoryRules (a : Analysis) : List (Bool × List Char) :=
  let fn := toLowerL a.filename
  let p := toLowerL a.path
  [(containsSub fn "groove".toList || containsSub fn "drum".toList ||
      containsSub fn "beat".toList || containsSub fn "rhythm".toList,
    "groove_patterns".toList),
   (containsSub fn "chord".toList || containsSub fn "progression".toList ||
      containsSub fn "harmony".toList,
    "chord_progressions".toList),
   (containsSub fn "melody".toList || containsSub fn "lead".toList ||
      containsSub fn "tune".toList,
    "melodies".toList),
   (containsSub p "sample".toList || containsSub p "loop".toList,
    "samples".toList),
   (a.hasDrums, "groove_patterns".toList),
   (decide (a.numTracks = 1), "melodies".toList),
   (decide (5 < a.numTracks), "templates".toList)]

/-- Spec-side classifier: ordered rules, first match wins, default
`templates`. -/
def specCategorize (a : Analysis) : List Char :=
  firstMatch (specCategoryRules a) "templates".toList

/-- The report entry `process_all_files` appends to `discovered` for one
file. -/
def discoveredEntryOf (f : SourceFile) : DiscoveredEntry :=
  match f.data with
  | .ok m => .ok (analyzeMidiFile f.name f.path m)
  | .error e => .err e f.name f.path

/-- The integration record for one successfully analyzed file (it does not
depend on the filesystem contents). -/
def integrationInfoOf (f : SourceFile) (m : MidiFile) : IntegrationInfo :=
  let an := analyzeMidiFile f.name f.path m
  (integrateMidiFile [] f.path (some m) an (categorizeMidiFile an)).2

/-! ## Concrete inputs used by counterexamples and witnesses -/

/-- A one-track melody file: a single sounding note, two seconds long. -/
def demoLead1 : MidiFile :=
  { typ := 1, ticksPerBeat := 480, length := 2,
    tracks := [[⟨0, .noteOn 0 60 100⟩]] }

/-- A distinct one-track melody file (different note) with the same
tempo/time-signature/track-count profile as `demoLead1`. -/
def demoLead2 : MidiFile :=
  { typ := 1, ticksPerBeat := 480, length := 2,
    tracks := [[⟨0, .noteOn 0 62 100⟩]] }

/-- A file with two tempo events: 100 BPM (600000 µs/beat) then 200 BPM
(300000 µs/beat). -/
def demoTwoTempos : MidiFile :=
  { typ := 1, ticksPerBeat := 480, length := 2,
    tracks := [[⟨0, .setTempo 600000⟩, ⟨0, .setTempo 300000⟩,
                ⟨0, .noteOn 0 60 100⟩]] }

/-- A two-track drumless file whose path (but not filename) contains the
keyword `drum`. -/
def demoPathDrum : Analysis :=
  analyzeMidiFile "song.mid".toList "drums/song.mid".toList
    { typ := 1, ticksPerBeat := 480, length := 2,
      tracks := [[⟨0, .noteOn 0 60 100⟩], [⟨0, .noteOn 1 64 90⟩]] }

/-- A storage tree holding one parseable template and one corrupt file. -/
def demoValidationFS : FS :=
  [("storage/midi/templates/good.mid".toList, some demoLead1),
   ("storage/midi/templates/bad.mid".toList, none)]

/-- A remote listing whose three entries derive the identities
`funk_95`, `rock_140` and `jazz_110`. -/
def demoRemote : List PatternInfo :=
  [mkPatternInfo "funk_beat_95.mid".toList "funk_beat_95.mid".toList 100,
   mkPatternInfo "rock_beat_140.mid".toList "rock_beat_140.mid".toList 100,
   mkPatternInfo "jazz_beat_110.mid".toList "jazz_beat_110.mid".toList 100]

/-- A local identity set containing only `funk_95`. -/
def demoLocal : List (List Char) := ["funk_95".toList]

/-- The analysis of a `funk_groove_drums.mid` drum file with seven tracks. -/
def demoFunkGroove : Analysis :=
  { filename := "funk_groove_drums.mid".toList
    path := "attached_assets/funk_groove_drums.mid".toList
    numTracks := 7
    tempoChanges := []
    timeSignatures := []
    hasDrums := true
    estimatedTempo := 120
    timeSignature := "4/4".toList }

/-- An imported record that carries a primary tempo. -/
def demoImportRecord : ImportRecord :=
  { filename := "funk_beat.mid".toList, category := "drums".toList,
    primaryBpm := some 95 }

/-! # Theorems -/

/-! ## Recursion equations for `replaceL` and MD5 reference vectors -/

theorem replaceLAux_irrel (pat repl : List Char) :
    ∀ (f g : ℕ) (s : List Char), s.length ≤ f → s.length ≤ g →
      replaceLAux pat repl f s = replaceLAux pat repl g s := by
  intro f
  induction f with
  | zero =>
    intro g s hf _
    have : s = [] := List.eq_nil_of_length_eq_zero (Nat.le_zero.mp hf)
    subst this
    cases g <;> rfl
  | succ n ih =>
    intro g s hf hg
    match s with
    | [] => cases g <;> rfl
    | c :: cs =>
      match g with
      | 0 => simp at hg
      | g' + 1 =>
        simp only [List.length_cons, Nat.succ_le_succ_iff] at hf hg
        simp only [replaceLAux]
        by_cases h : pat.isPrefixOf (c :: cs)
        · simp only [h, if_true]
          have hd : (cs.drop (pat.length - 1)).length ≤ cs.length := by
            simp [List.length_drop]
          exact congrArg _ (ih g' _ (le_trans hd hf) (le_trans hd hg))
        · simp only [h, Bool.false_eq_true, if_false]
          exact congrArg (c :: ·) (ih g' cs hf hg)

theorem replaceL_nil (pat repl : List Char) : replaceL [] pat repl = [] := rfl

theorem replaceL_cons (c : Char) (cs pat repl : List Char) :
    replaceL (c :: cs) pat repl =
      if pat.isPrefixOf (c :: cs) then
        repl ++ replaceL (cs.drop (pat.length - 1)) pat repl
      else c :: replaceL cs pat repl := by
  simp only [replaceL, List.length_cons, replaceLAux]
  by_cases h : pat.isPrefixOf (c :: cs)
  · simp only [h, if_true]
    exact congrArg _ (replaceLAux_irrel pat repl _ _ _ (by simp) (le_refl _))
  · simp only [h, Bool.false_eq_true, if_false]

set_option maxRecDepth 10000 in
theorem md5hex_empty_vector :
    md5hex [] = "d41d8cd98f00b204e9800998ecf8427e".toList := by decide

set_option maxRecDepth 10000 in
theorem md5hex_abc_vector :
    md5hex "abc".toList = "900150983cd24fb0d6963f7d28e17f72".toList := by
  decide

/-! ## C10 — the `bmp`/`bpm` NameError in `_get_tempo_range` -/

theorem getTempoRange_error (bpm : ℚ) :
    getTempoRange bpm = .error bmpNameError := rfl

theorem foldlM_catalogStep_error :
    ∀ (records : List ImportRecord) (c : RhythmCatalog),
      (∃ r ∈ records, r.primaryBpm.isSome) →
      List.foldlM catalogStep c records = .error bmpNameError := by
  intro records
  induction records with
  | nil => intro c h; simp at h
  | cons r rest ih =>
    intro c h
    rw [List.foldlM_cons]
    cases hbpm : r.primaryBpm with
    | some bpm =>
      have hstep : catalogStep c r = .error bmpNameError := by
        simp only [catalogStep, hbpm]
        rw [getTempoRange_error]
        rfl
      rw [hstep]
      rfl
    | none =>
      have hrest : ∃ x ∈ rest, x.primaryBpm.isSome := by
        rcases h with ⟨x, hx, hsome⟩
        rcases List.mem_cons.mp hx with rfl | hx'
        · rw [hbpm] at hsome; simp at hsome
        · exact ⟨x, hx', hsome⟩
      have hstep : catalogStep c r =
          .ok { c with categories := bumpCount c.categories r.category } := by
        simp [catalogStep, hbpm]
      rw [hstep]
      exact ih _ hrest

/-- C10: for every numeric BPM input, `_get_tempo_range` evaluates the
undefined name `bmp` and raises `NameError`; consequently
`_generate_rhythm_catalog` fails whenever at least one imported file
record carries a primary tempo. -/
theorem C10_tempo_range_name_error :
    (∀ bpm : ℚ, getTempoRange bpm = .error bmpNameError) ∧
    ∀ records : List ImportRecord,
      (∃ r ∈ records, r.primaryBpm.isSome) →
      generateRhythmCatalog records = .error bmpNameError :=
  ⟨getTempoRange_error,
   fun records h => foldlM_catalogStep_error records _ h⟩

/-- Witness for C10 at a concrete one-record import report. -/
theorem C10_tempo_range_name_error_witness :
    (∃ r ∈ [demoImportRecord], r.primaryBpm.isSome) ∧
    generateRhythmCatalog [demoImportRecord] = .error bmpNameError :=
  ⟨⟨demoImportRecord, by simp, rfl⟩,
   C10_tempo_range_name_error.2 [demoImportRecord]
     ⟨demoImportRecord, by simp, rfl⟩⟩

/-! ## C4 — the missing set is the remote/local identity difference -/

/-- C4: `find_missing_patterns` reports exactly the remote items whose
derived identity is absent from the local identity set, and on the
spec's scenario (remote identities `funk_95`, `rock_140`, `jazz_110`;
local identities `funk_95`) the missing identities are exactly
`rock_140` and `jazz_110`, in listing order. -/
theorem C4_missing_is_difference :
    (∀ (remote : List PatternInfo) (existing : List (List Char))
        (p : PatternInfo),
        p ∈ findMissingPatterns remote existing ↔
          p ∈ remote ∧ p.patternId ∉ existing) ∧
    (findMissingPatterns demoRemote demoLocal).map PatternInfo.patternId =
      ["rock_140".toList, "jazz_110".toList] := by
  constructor
  · intro remote existing p
    simp [findMissingPatterns, List.mem_filter]
  · decide

/-! ## C9 — per-file errors are recorded and never abort the batch -/

theorem integrateMidiFile_snd_fs_free (fs fs' : FS) (p : List Char)
    (c : Option MidiFile) (a : Analysis) (cat : List Char) :
    (integrateMidiFile fs p c a cat).2 = (integrateMidiFile fs' p c a cat).2 :=
  rfl

theorem foldl_processStep_spec :
    ∀ (files : List SourceFile) (r : RunReport),
      (files.foldl processStep r).discovered =
          r.discovered ++ files.map discoveredEntryOf ∧
      (files.foldl processStep r).processed =
          r.processed ++ files.filterMap (fun f =>
            match f.data with
            | .ok m => some (integrationInfoOf f m)
            | .error _ => none) := by
  intro files
  induction files with
  | nil => intro r; simp
  | cons f fs ih =>
    intro r
    rw [List.foldl_cons]
    obtain ⟨h1, h2⟩ := ih (processStep r f)
    rcases hdata : f.data with e | m
    · have hstep : processStep r f =
          { r with discovered := r.discovered ++ [.err e f.name f.path] } := by
        simp [processStep, hdata]
      constructor
      · rw [h1, hstep]
        simp [discoveredEntryOf, hdata]
      · rw [h2, hstep]
        simp [hdata]
    · have hstep : processStep r f =
          { discovered := r.discovered ++
              [.ok (analyzeMidiFile f.name f.path m)]
            processed := r.processed ++ [integrationInfoOf f m]
            fs := (integrateMidiFile r.fs f.path (some m)
              (analyzeMidiFile f.name f.path m)
              (categorizeMidiFile (analyzeMidiFile f.name f.path m))).1 } := by
        simp only [processStep, hdata]
        rfl
      constructor
      · rw [h1, hstep]
        simp [discoveredEntryOf, hdata]
      · rw [h2, hstep]
        simp [hdata]

/-- C9: in `process_all_files`, every file of the batch gets exactly one
`discovered` report entry in order — an error entry when its parse raised —
and the files integrated are exactly the successfully analyzed ones, each
categorized and integrated; a malformed file is skipped without aborting
the rest. -/
theorem C9_errors_recorded_batch_continues :
    ∀ (fs₀ : FS) (files : List SourceFile),
      (processAllFiles fs₀ files).discovered = files.map discoveredEntryOf ∧
      (processAllFiles fs₀ files).discovered.length = files.length ∧
      (processAllFiles fs₀ files).processed = files.filterMap (fun f =>
        match f.data with
        | .ok m => some (integrationInfoOf f m)
        | .error _ => none) := by
  intro fs₀ files
  obtain ⟨h1, h2⟩ :=
    foldl_processStep_spec files { discovered := [], processed := [], fs := fs₀ }
  refine ⟨?_, ?_, ?_⟩
  · simpa [processAllFiles] using h1
  · have : (processAllFiles fs₀ files).discovered = files.map discoveredEntryOf := by
      simpa [processAllFiles] using h1
    simp [this]
  · simpa [processAllFiles] using h2

/-! ## C1 — colliding descriptive filenames are overwritten, not suffixed -/

/-- C1 counterexample: two distinct files (`demoLead1` in
`attached_assets/a/`, `demoLead2` in `mir-data/b/`, both named `lead.mid`,
both 1-track/120bpm/4-4) are assigned the *same* storage path, and after
the second integration that path holds the second file's content — the
first file's content is not preserved and no numeric suffix is used. -/
theorem C1_counterexample_overwrite :
    let p1 := "attached_assets/a/lead.mid".toList
    let p2 := "mir-data/b/lead.mid".toList
    let a1 := analyzeMidiFile "lead.mid".toList p1 demoLead1
    let a2 := analyzeMidiFile "lead.mid".toList p2 demoLead2
    let r1 := integrateMidiFile [] p1 (some demoLead1) a1 (categorizeMidiFile a1)
    let r2 := integrateMidiFile r1.1 p2 (some demoLead2) a2 (categorizeMidiFile a2)
    demoLead1 ≠ demoLead2 ∧
    r1.2.integratedPath = r2.2.integratedPath ∧
    fsLookup r2.1 r1.2.integratedPath = some (some demoLead2) := by
  decide

/-- C1 amended: when two integrations compute the same descriptive filename
and category directory (same stem, analysis and category), the integrator
assigns them the *same* storage path and the second integration overwrites
the first file's content at that path; no suffixing occurs. -/
theorem C1_amended_same_target_overwrites :
    ∀ (fs : FS) (p1 p2 : List Char) (m1 m2 : Option MidiFile)
      (a : Analysis) (cat : List Char),
      stemL (baseNameL p1) = stemL (baseNameL p2) →
      (integrateMidiFile fs p1 m1 a cat).2.integratedPath =
        (integrateMidiFile (integrateMidiFile fs p1 m1 a cat).1
          p2 m2 a cat).2.integratedPath ∧
      fsLookup (integrateMidiFile (integrateMidiFile fs p1 m1 a cat).1
          p2 m2 a cat).1
        (integrateMidiFile fs p1 m1 a cat).2.integratedPath = some m2 := by
  intro fs p1 p2 m1 m2 a cat h
  constructor
  · simp only [integrateMidiFile]
    rw [h]
  · simp only [integrateMidiFile, fsWrite, fsLookup]
    rw [h]
    simp

/-- Witness for C1 amended, at the two concrete `lead.mid` sources. -/
theorem C1_amended_same_target_overwrites_witness :
    stemL (baseNameL "attached_assets/a/lead.mid".toList) =
      stemL (baseNameL "mir-data/b/lead.mid".toList) ∧
    ((integrateMidiFile [] "attached_assets/a/lead.mid".toList
        (some demoLead1) demoPathDrum "melodies".toList).2.integratedPath =
      (integrateMidiFile
        (integrateMidiFile [] "attached_assets/a/lead.mid".toList
          (some demoLead1) demoPathDrum "melodies".toList).1
        "mir-data/b/lead.mid".toList (some demoLead2) demoPathDrum
        "melodies".toList).2.integratedPath ∧
     fsLookup (integrateMidiFile
        (integrateMidiFile [] "attached_assets/a/lead.mid".toList
          (some demoLead1) demoPathDrum "melodies".toList).1
        "mir-data/b/lead.mid".toList (some demoLead2) demoPathDrum
        "melodies".toList).1
       (integrateMidiFile [] "attached_assets/a/lead.mid".toList
         (some demoLead1) demoPathDrum "melodies".toList).2.integratedPath =
       some (some demoLead2)) :=
  ⟨by decide,
   C1_amended_same_target_overwrites [] _ _ (some demoLead1) (some demoLead2)
     demoPathDrum "melodies".toList (by decide)⟩

/-! ## C6 — a validation run deletes corrupt files -/

theorem mem_deletedPaths (fs : FS) (p : List Char) :
    p ∈ deletedPaths (collectInvalid fs) ↔
      (p, (none : Option MidiFile)) ∈ fs := by
  constructor
  · intro h
    rcases List.mem_map.mp h with ⟨r, hr, hpath⟩
    rcases List.mem_filter.mp hr with ⟨hr2, hvalid⟩
    rcases List.mem_filter.mp hr2 with ⟨hr3, _⟩
    rcases List.mem_map.mp hr3 with ⟨e, he, rfl⟩
    cases hc : e.2 with
    | some m => rw [hc] at hvalid; simp [validateMidiFile] at hvalid
    | none =>
      have hfst : e.1 = p := by
        rw [hc] at hpath
        simpa [validateMidiFile] using hpath
      have : e = (p, none) := by
        cases e with
        | mk e1 e2 => simp only at hfst hc; rw [hfst, hc]
      rw [← this]
      exact he
  · intro h
    refine List.mem_map.mpr ⟨validateMidiFile p none, ?_, rfl⟩
    refine List.mem_filter.mpr ⟨List.mem_filter.mpr
      ⟨List.mem_map.mpr ⟨(p, none), h, rfl⟩, ?_⟩, ?_⟩
    · simp [validateMidiFile, recordCountsValid]
    · simp [validateMidiFile]

/-- C6 counterexample: a storage tree with one parseable and one corrupt
file; running the validation entry point removes the corrupt file, so the
set of files on disk is changed by a validation run. -/
theorem C6_counterexample_validation_deletes :
    runFullValidation demoValidationFS =
      [("storage/midi/templates/good.mid".toList, some demoLead1)] ∧
    demoValidationFS ≠
      [("storage/midi/templates/good.mid".toList, some demoLead1)] := by
  refine ⟨?_, by decide⟩
  have hlen : ¬ (demoLead1.length < (1/10 : ℚ)) := by norm_num [demoLead1]
  have hnc : noteCountOf demoLead1 = 1 := by decide
  simp only [runFullValidation, fixInvalidFiles, collectInvalid, deletedPaths,
    demoValidationFS, List.map_cons, List.map_nil, validateMidiFile, hnc, hlen,
    recordCountsValid]
  norm_num

/-- C6 amended: `run_full_validation` automatically invokes the fix step,
which deletes exactly the unparseable files: on a storage tree with
distinct paths, a validation run keeps precisely the parseable files
(files with mere issues included) and removes the corrupt ones. -/
theorem C6_amended_validation_deletes_corrupt :
    ∀ fs : FS, (fs.map Prod.fst).Nodup →
      runFullValidation fs = fs.filter (fun e => e.2.isSome) := by
  intro fs hnodup
  unfold runFullValidation fixInvalidFiles
  apply List.filter_congr
  intro e he
  cases hc : e.2 with
  | none =>
    have hmem : e.1 ∈ deletedPaths (collectInvalid fs) := by
      refine (mem_deletedPaths fs e.1).mpr ?_
      have heq : e = (e.1, (none : Option MidiFile)) := by
        cases e with
        | mk e1 e2 => simp only at hc; rw [hc]
      rw [← heq]
      exact he
    have htrue : (deletedPaths (collectInvalid fs)).contains e.1 = true :=
      List.elem_iff.mpr hmem
    rw [htrue]
    rfl
  | some m =>
    have hnot : e.1 ∉ deletedPaths (collectInvalid fs) := by
      intro hmem
      have h2 : (e.1, (none : Option MidiFile)) ∈ fs :=
        (mem_deletedPaths fs e.1).mp hmem
      have heq := List.inj_on_of_nodup_map hnodup h2 he rfl
      rw [← heq] at hc
      simp at hc
    have hfalse : (deletedPaths (collectInvalid fs)).contains e.1 = false := by
      rw [← Bool.not_eq_true]
      intro hcon
      exact hnot (List.elem_iff.mp hcon)
    rw [hfalse]
    rfl

/-- Witness for C6 amended on the two-file storage tree. -/
theorem C6_amended_validation_deletes_corrupt_witness :
    (demoValidationFS.map Prod.fst).Nodup ∧
    runFullValidation demoValidationFS =
      demoValidationFS.filter (fun e => e.2.isSome) :=
  ⟨by decide, C6_amended_validation_deletes_corrupt demoValidationFS (by decide)⟩

/-! ## C7 — integrated copy valid iff sounding notes and long enough -/

theorem tracks_ne_nil_of_noteCount_pos (m : MidiFile)
    (h : 0 < noteCountOf m) : m.tracks.length ≠ 0 := by
  intro hlen
  have hnil : m.tracks = [] := List.eq_nil_of_length_eq_zero hlen
  simp [noteCountOf, allMsgs, hnil] at h

/-- C7: after integrating a parsed file, the integrated path holds the
same content, and the validator's acceptance check passes on it exactly
when the file has at least one sounding note (`note_on` with positive
velocity) and its duration is at least the 0.1-second threshold.  (A zero
track count cannot defeat the equivalence: a sounding note forces a
nonempty track list.) -/
theorem C7_integrated_copy_valid_iff :
    ∀ (fs : FS) (srcPath fn cat : List Char) (m : MidiFile),
      fsLookup (integrateMidiFile fs srcPath (some m)
          (analyzeMidiFile fn srcPath m) cat).1
        (integrateMidiFile fs srcPath (some m)
          (analyzeMidiFile fn srcPath m) cat).2.integratedPath =
        some (some m) ∧
      (recordCountsValid (validateMidiFile
          (integrateMidiFile fs srcPath (some m)
            (analyzeMidiFile fn srcPath m) cat).2.integratedPath
          (some m)) = true ↔
        (0 < noteCountOf m ∧ 1/10 ≤ m.length)) := by
  intro fs srcPath fn cat m
  constructor
  · simp [integrateMidiFile, fsWrite, fsLookup]
  · simp only [validateMidiFile, recordCountsValid]
    rcases Nat.eq_zero_or_pos (noteCountOf m) with h1 | h1
    · simp [h1]
    · have h1' : noteCountOf m ≠ 0 := Nat.pos_iff_ne_zero.mp h1
      have h3 : m.tracks.length ≠ 0 := tracks_ne_nil_of_noteCount_pos m h1
      by_cases h2 : m.length < 1/10
      · simp [h1', h3, h1, not_le.mpr h2, h2]
      · simp [h1', h3, h1, not_lt.mp h2, h2]

/-! ## C8 — first-event tempo vs averaged tempo -/

theorem roundHalfEven_intCast (n : ℤ) : roundHalfEven ((n : ℚ)) = n := by
  unfold roundHalfEven
  rw [Int.floor_intCast]
  norm_num

theorem pyRound2_intCast (n : ℤ) : pyRound2 ((n : ℚ)) = (n : ℚ) := by
  unfold pyRound2
  have h : ((n : ℚ) * 100) = (((n * 100 : ℤ)) : ℚ) := by push_cast; ring
  rw [h, roundHalfEven_intCast]
  push_cast
  exact mul_div_cancel_right₀ _ (by norm_num)

theorem collectTempo_map_bpm :
    ∀ (msgs : List MidiMsg) (t : ℕ),
      (collectTempo msgs t).map TempoChange.bpm =
        msgs.filterMap (fun msg =>
          match msg.kind with
          | .setTempo tempo => some (pyRound2 (tempo2bpm tempo))
          | _ => none) := by
  intro msgs
  induction msgs with
  | nil => intro t; rfl
  | cons msg rest ih =>
    intro t
    cases hk : msg.kind <;> simp [collectTempo, hk, ih]

theorem catalogTempos_flatten (m : MidiFile) :
    (catalogTrackTempos m).flatten =
      (tempoChangesOf m).map TempoChange.bpm := by
  rw [tempoChangesOf, collectTempo_map_bpm, allMsgs, List.flatMap_id,
    catalogTrackTempos, List.filterMap_flatten]

/-- C8 counterexample: on a file whose tempo events are 100 then 200 BPM,
the comprehensive processor estimates 100 (the first event) while the
catalog script's `estimate_overall_tempo` returns the mean 150 — so the
estimated tempo does not equal the first tempo event's BPM in the cited
catalog code. -/
theorem C8_counterexample_mean_not_first :
    (analyzeMidiFile "a.mid".toList "a.mid".toList
        demoTwoTempos).estimatedTempo = 100 ∧
    catalogEstimatedTempo demoTwoTempos = 150 ∧ (150 : ℚ) ≠ 100 := by
  have h1 : tempo2bpm 600000 = 100 := by norm_num [tempo2bpm]
  have h2 : tempo2bpm 300000 = 200 := by norm_num [tempo2bpm]
  have hr1 : pyRound2 (tempo2bpm 600000) = 100 := by
    rw [h1]
    have := pyRound2_intCast 100
    norm_num at this
    simpa using this
  have hr2 : pyRound2 (tempo2bpm 300000) = 200 := by
    rw [h2]
    have := pyRound2_intCast 200
    norm_num at this
    simpa using this
  refine ⟨?_, ?_, by norm_num⟩
  · simp [analyzeMidiFile, tempoChangesOf, allMsgs, demoTwoTempos,
      collectTempo, hr1]
  · have hmean : ((100 : ℚ) + 200) / 2 = 150 := by norm_num
    have hr150 : pyRound2 (150 : ℚ) = 150 := by
      have := pyRound2_intCast 150
      norm_num at this
      simpa using this
    simp [catalogEstimatedTempo, catalogTrackTempos, estimateOverallTempo,
      demoTwoTempos, hr1, hr2, hr150]
    norm_num [hr150]

/-- C8 amended: over the same tempo-event list, the comprehensive
processor's estimated tempo is the first event's BPM (default 120), while
`estimate_overall_tempo` in the catalog script is the two-decimal-rounded
mean of all events' BPMs (default 120). -/
theorem C8_amended_first_vs_mean :
    ∀ (fn p : List Char) (m : MidiFile),
      ((analyzeMidiFile fn p m).estimatedTempo =
        match tempoChangesOf m with
        | tc :: _ => tc.bpm
        | [] => 120) ∧
      (catalogEstimatedTempo m =
        (let bpms := (tempoChangesOf m).map TempoChange.bpm
         if bpms.isEmpty then 120
         else pyRound2 (bpms.sum / (bpms.length : ℚ)))) := by
  intro fn p m
  refine ⟨rfl, ?_⟩
  simp only [catalogEstimatedTempo, estimateOverallTempo]
  rw [catalogTempos_flatten]

/-! ## C5 — the classifier's keyword rules read the filename only -/

/-- C5 counterexample: a file named `song.mid` whose *path*
`drums/song.mid` contains the keyword `drum` (and which has no drums and
two tracks) is classified `templates`, not `groove_patterns` — rule 1 does
not look at the path. -/
theorem C5_counterexample_path_keyword_ignored :
    categorizeMidiFile demoPathDrum = "templates".toList ∧
    containsSub (toLowerL demoPathDrum.path) "drum".toList = true ∧
    "templates".toList ≠ "groove_patterns".toList := by
  decide

/-- C5 amended: category assignment is the fixed-priority first-match rule
chain of the spec with rules 1–3 reading the lower-cased *filename only*
(rule 4 reads the path, then `has_drums`, then the track-count rules,
default `templates`); and a file named `funk_groove_drums.mid` classifies
as `groove_patterns` regardless of every other analysis field. -/
theorem C5_amended_filename_only_priority :
    (∀ a : Analysis, categorizeMidiFile a = specCategorize a) ∧
    (∀ a : Analysis, a.filename = "funk_groove_drums.mid".toList →
      categorizeMidiFile a = "groove_patterns".toList) := by
  constructor
  · intro a
    simp only [categorizeMidiFile, specCategorize, specCategoryRules,
      firstMatch, List.any_cons, List.any_nil, Bool.or_false, Bool.or_assoc,
      decide_eq_true_eq]
  · intro a hfn
    simp only [categorizeMidiFile, hfn]
    exact if_pos (by decide)

/-- Witness for C5 amended at the concrete drum-file analysis. -/
theorem C5_amended_filename_only_priority_witness :
    demoFunkGroove.filename = "funk_groove_drums.mid".toList ∧
    categorizeMidiFile demoFunkGroove = "groove_patterns".toList :=
  ⟨rfl, C5_amended_filename_only_priority.2 demoFunkGroove rfl⟩

/-! ## C3 — identity derivation needs at least three tokens -/

set_option maxRecDepth 10000 in
/-- C3 counterexample: the filename `rock_120` tokenizes into a tempo token
in `[60, 250]` and a style-vocabulary token, yet its derived identity is
not `rock_120` (the code additionally requires at least three tokens, so
it hashes instead). -/
theorem C3_counterexample_two_tokens_hash :
    isTempoTok "120".toList = true ∧ isStyleTok "rock".toList = true ∧
    List.splitOn '_' (cleanedName "rock_120".toList) =
      ["rock".toList, "120".toList] ∧
    createPatternId "rock_120".toList ≠ "rock_120".toList := by
  refine ⟨by decide, by decide, by decide, ?_⟩
  decide

theorem styleTok_not_tempoTok (p : List Char) (hp : isStyleTok p = true) :
    isTempoTok p = false := by
  have hmem : p ∈ styleVocab := by
    simpa [isStyleTok, List.elem_iff] using hp
  fin_cases hmem <;> decide

theorem scanParts_eq_lastOr :
    ∀ (parts : List (List Char)) (t s : Option (List Char)),
      scanParts parts t s =
        (lastOr (parts.filter isTempoTok) t,
         lastOr (parts.filter isStyleTok) s) := by
  intro parts
  induction parts with
  | nil => intro t s; rfl
  | cons p ps ih =>
    intro t s
    by_cases ht : isTempoTok p = true
    · have hs : isStyleTok p = false := by
        by_cases h : isStyleTok p = true
        · rw [styleTok_not_tempoTok p h] at ht; cases ht
        · simpa using h
      simp only [scanParts, ht, if_true, List.filter_cons, hs,
        Bool.false_eq_true, if_false, lastOr]
      exact ih (some p) s
    · simp only [Bool.not_eq_true] at ht
      by_cases hst : isStyleTok p = true
      · simp only [scanParts, ht, Bool.false_eq_true, if_false, hst, if_true,
          List.filter_cons, lastOr]
        exact ih t (some p)
      · simp only [Bool.not_eq_true] at hst
        simp only [scanParts, ht, hst, Bool.false_eq_true, if_false,
          List.filter_cons]
        exact ih t s

/-- C3 amended: the derived identity is `"{style}_{tempo}"` built from the
*last* tempo token (digits in `[60, 250]`) and the *last* style-vocabulary
token (`rock, funk, jazz, latin, blues, reggae, hiphop`) of the cleaned
filename (with `groove_` and `.mid` stripped) — but only when the cleaned
name splits into at least three `_`-separated tokens and both kinds occur;
otherwise the identity is the first 8 hex characters of the MD5 of the
cleaned name. -/
theorem C3_amended_pattern_id_characterization :
    ∀ name : List Char, createPatternId name = specPatternId name := by
  intro name
  simp only [createPatternId, specPatternId]
  rw [scanParts_eq_lastOr]
  by_cases hlen : 3 ≤ (List.splitOn '_' (cleanedName name)).length
  · simp only [hlen, if_true]
    rcases lastOr ((List.splitOn '_' (cleanedName name)).filter isTempoTok)
        none with _ | tempo <;>
      rcases lastOr ((List.splitOn '_' (cleanedName name)).filter isStyleTok)
        none with _ | style <;> simp [hlen]
  · simp only [hlen, if_false]
    rcases lastOr ((List.splitOn '_' (cleanedName name)).filter isTempoTok)
        none with _ | tempo <;>
      rcases lastOr ((List.splitOn '_' (cleanedName name)).filter isStyleTok)
        none with _ | style <;> simp [hlen]

/-! ## C2 — local vs remote identity derivation -/

theorem mem_replaceLAux :
    ∀ (f : ℕ) (s pat : List Char) (c : Char),
      c ∈ replaceLAux pat [] f s → c ∈ s := by
  intro f
  induction f with
  | zero => intro s pat c h; simpa [replaceLAux] using h
  | succ n ih =>
    intro s pat c h
    match s with
    | [] => simp [replaceLAux] at h
    | x :: xs =>
      simp only [replaceLAux] at h
      by_cases hp : pat.isPrefixOf (x :: xs) = true
      · rw [if_pos hp] at h
        simp only [List.nil_append] at h
        exact List.mem_cons_of_mem x (List.mem_of_mem_drop (ih _ pat c h))
      · rw [if_neg hp] at h
        rcases List.mem_cons.mp h with rfl | h'
        · exact List.mem_cons_self _ _
        · exact List.mem_cons_of_mem x (ih _ pat c h')

theorem mem_replaceL (s pat : List Char) (c : Char)
    (h : c ∈ replaceL s pat []) : c ∈ s :=
  mem_replaceLAux s.length s pat c h

theorem midTok_not_isPrefixOf (c : Char) (cs : List Char) (hc : c ≠ '.') :
    midTok.isPrefixOf (c :: cs) = false := by
  have hbe : ('.' == c) = false := beq_eq_false_iff_ne.mpr (Ne.symm hc)
  simp [midTok, List.isPrefixOf, hbe]

theorem replaceL_midTok_id :
    ∀ (h : List Char), '.' ∉ h → ∀ r, replaceL h midTok r = h := by
  intro h
  induction h with
  | nil => intro _ r; rfl
  | cons c cs ih =>
    intro hdot r
    have hc : c ≠ '.' := fun hceq => hdot (hceq ▸ List.mem_cons_self _ _)
    rw [replaceL_cons, midTok_not_isPrefixOf c cs hc]
    simp only [Bool.false_eq_true, if_false]
    exact congrArg (c :: ·)
      (ih (fun m => hdot (List.mem_cons_of_mem _ m)) r)

theorem replaceL_strip_midTok :
    ∀ (h : List Char), '.' ∉ h →
      replaceL (h ++ midTok) midTok [] = h := by
  intro h
  induction h with
  | nil => decide
  | cons c cs ih =>
    intro hdot
    have hc : c ≠ '.' := fun hceq => hdot (hceq ▸ List.mem_cons_self _ _)
    rw [List.cons_append, replaceL_cons,
      midTok_not_isPrefixOf c (cs ++ midTok) hc]
    simp only [Bool.false_eq_true, if_false]
    exact congrArg (c :: ·) (ih (fun m => hdot (List.mem_cons_of_mem _ m)))

theorem grooveTok_isPrefixOf_append_midTok (c : Char) (cs : List Char) :
    grooveTok.isPrefixOf ((c :: cs) ++ midTok) =
      grooveTok.isPrefixOf (c :: cs) := by
  by_cases h2 : grooveTok.isPrefixOf (c :: cs) = true
  · have hp : grooveTok <+: (c :: cs) := List.isPrefixOf_iff_prefix.mp h2
    have hext : grooveTok <+: (c :: cs) ++ midTok :=
      hp.trans (List.prefix_append _ _)
    rw [h2, List.isPrefixOf_iff_prefix.mpr hext]
  · have h2' : grooveTok.isPrefixOf (c :: cs) = false :=
      Bool.eq_false_iff.mpr h2
    rw [h2']
    by_contra hne
    have htrue : grooveTok.isPrefixOf ((c :: cs) ++ midTok) = true :=
      Bool.ne_false_iff.mp hne
    have hpre : grooveTok <+: (c :: cs) ++ midTok :=
      List.isPrefixOf_iff_prefix.mp htrue
    by_cases hlen : 7 ≤ (c :: cs).length
    · have htake : (c :: cs).take 7 = grooveTok := by
        obtain ⟨u, hu⟩ := hpre
        have h1 : ((c :: cs) ++ midTok).take 7 = (c :: cs).take 7 :=
          List.take_append_of_le_length hlen
        have hg7 : grooveTok.length = 7 := by decide
        have h2t : (grooveTok ++ u).take 7 = grooveTok := by
          rw [← hg7]; exact List.take_left _ _
        rw [hu, h1] at h2t
        exact h2t
      have hp2 : grooveTok <+: (c :: cs) := by
        rw [← htake]; exact List.take_prefix 7 (c :: cs)
      have := List.isPrefixOf_iff_prefix.mpr hp2
      rw [this] at h2'
      simp at h2'
    · push_neg at hlen
      obtain ⟨u, hu⟩ := hpre
      have hkmid : (c :: cs).length < ((c :: cs) ++ midTok).length := by
        simp [midTok]
      have e2 : ((c :: cs) ++ midTok)[(c :: cs).length]? =
          midTok[(c :: cs).length - (c :: cs).length]? :=
        List.getElem?_append_right (le_refl _)
      have e2' : ((c :: cs) ++ midTok)[(c :: cs).length]? = some '.' := by
        rw [e2, Nat.sub_self]
        rfl
      have hg7 : grooveTok.length = 7 := by decide
      have e1 : (grooveTok ++ u)[(c :: cs).length]? =
          grooveTok[(c :: cs).length]? :=
        List.getElem?_append_left (by rw [hg7]; exact hlen)
      have hmem : '.' ∈ grooveTok := by
        apply List.getElem?_mem
        rw [← e1, hu, e2']
      simp [grooveTok] at hmem

theorem replaceL_grooveTok_append_midTok :
    ∀ (n : ℕ) (s : List Char), s.length ≤ n → '.' ∉ s →
      replaceL (s ++ midTok) grooveTok [] =
        replaceL s grooveTok [] ++ midTok := by
  intro n
  induction n with
  | zero =>
    intro s hlen _
    have : s = [] := List.eq_nil_of_length_eq_zero (Nat.le_zero.mp hlen)
    subst this
    decide
  | succ n ih =>
    intro s hlen hdot
    match s with
    | [] => decide
    | c :: cs =>
      have hdcs : '.' ∉ cs := fun m => hdot (List.mem_cons_of_mem _ m)
      have hlcs : cs.length ≤ n := by
        simpa [Nat.succ_le_succ_iff] using hlen
      rw [List.cons_append, replaceL_cons, replaceL_cons c cs grooveTok [],
        ← List.cons_append, grooveTok_isPrefixOf_append_midTok]
      by_cases h2 : grooveTok.isPrefixOf (c :: cs) = true
      · rw [h2]
        simp only [if_true, List.nil_append]
        have h7 : 7 ≤ (c :: cs).length :=
          (List.isPrefixOf_iff_prefix.mp h2).length_le
        have h6 : 6 ≤ cs.length := by
          simpa [Nat.succ_le_succ_iff] using h7
        have hg1 : grooveTok.length - 1 = 6 := by decide
        rw [hg1, List.drop_append_of_le_length h6]
        exact ih (cs.drop 6) (le_trans (by simp) hlcs)
          (fun m => hdcs (List.mem_of_mem_drop m))
      · have h2' : grooveTok.isPrefixOf (c :: cs) = false :=
          Bool.eq_false_iff.mpr h2
        rw [h2']
        simp only [Bool.false_eq_true, if_false, List.cons_append]
        exact congrArg (c :: ·) (ih cs hlcs hdcs)

theorem stemL_append_midTok (s : List Char) (_hdot : '.' ∉ s)
    (hne : s ≠ []) : stemL (s ++ midTok) = s := by
  simp only [stemL]
  have hrev : (s ++ midTok).reverse = 'd' :: 'i' :: 'm' :: '.' :: s.reverse := by
    rw [List.reverse_append]
    rfl
  rw [hrev]
  have hidx : List.indexOf '.' ('d' :: 'i' :: 'm' :: '.' :: s.reverse) = 3 := by
    rw [List.indexOf_cons_ne _ (by decide), List.indexOf_cons_ne _ (by decide),
      List.indexOf_cons_ne _ (by decide), List.indexOf_cons_self]
  rw [hidx]
  have h0 : 0 < s.length := List.length_pos.mpr hne
  have hlen : 3 + 1 < (s ++ midTok).length := by
    simp only [List.length_append]
    have : midTok.length = 4 := by decide
    omega
  rw [if_pos hlen]
  simp

theorem cleanedName_append_midTok (s : List Char) (hdot : '.' ∉ s) :
    cleanedName (s ++ midTok) = cleanedName s := by
  unfold cleanedName
  rw [replaceL_grooveTok_append_midTok s.length s (le_refl _) hdot]
  have hdot2 : '.' ∉ replaceL s grooveTok [] :=
    fun m => hdot (mem_replaceL s grooveTok '.' m)
  rw [replaceL_strip_midTok _ hdot2, replaceL_midTok_id _ hdot2]

set_option maxRecDepth 10000 in
/-- C2 counterexample: the local file `Rock_beat_120.mid` and the remote
entry `Rock_beat_120.mid` carry the same filename, but the local identity
(derived from the lower-cased stem `rock_beat_120`) is `rock_120` while
the remote identity (derived from the raw name) hashes — the two
identities differ. -/
theorem C2_counterexample_case_divergence :
    localPatternId "Rock_beat_120.mid".toList ≠
      remotePatternId "Rock_beat_120.mid".toList := by
  decide

/-- C2 amended: identity derivation is a pure function of the string
handed to it, but the local scan passes the lower-cased stem while the
remote scan passes the raw entry name; the two derivations agree on every
filename `s ++ ".mid"` whose stem `s` is nonempty, already lower-case and
dot-free — and can disagree on filenames with upper-case letters. -/
theorem C2_amended_lowercase_agreement :
    ∀ s : List Char, toLowerL s = s → '.' ∉ s → s ≠ [] →
      localPatternId (s ++ midTok) = remotePatternId (s ++ midTok) := by
  intro s hlower hdot hne
  unfold localPatternId remotePatternId
  rw [stemL_append_midTok s hdot hne, hlower]
  simp only [createPatternId]
  rw [cleanedName_append_midTok s hdot]

/-- Witness for C2 amended at the lower-case stem `funk_beat_95`. -/
theorem C2_amended_lowercase_agreement_witness :
    toLowerL "funk_beat_95".toList = "funk_beat_95".toList ∧
    '.' ∉ "funk_beat_95".toList ∧ "funk_beat_95".toList ≠ [] ∧
    localPatternId ("funk_beat_95".toList ++ midTok) =
      remotePatternId ("funk_beat_95".toList ++ midTok) :=
  ⟨by decide, by decide, by decide,
   C2_amended_lowercase_agreement "funk_beat_95".toList
     (by decide) (by decide) (by decide)⟩

end BurntBeats
